import Mathlib

/-
Verification of the Dualys layered-plan core (Plan.cpp / Plan.h / Layer.h).

The C++ heap is modelled as a store: a list of plan nodes, where the index of
a node in the list is its address (allocation order).  A `std::shared_ptr<const
Plan>` is an `Option Nat` — `none` for `nullptr`, `some i` for a pointer to the
node allocated at index `i`.  Pointer comparison (`operator==` on shared_ptr)
is therefore equality of `Option Nat`, which is identity of the pointee, not
structural equality of plans.  Every store reachable through the public API
(constructor, clone, applyLayer, merge) only ever gives a node a base that was
allocated strictly earlier, so a node's base index is always smaller than its
own index; `getFileSystemState` exploits this for termination (fuel `i + 1`
suffices to materialize node `i`).
-/

set_option autoImplicit false

namespace Dualys

/-- Model of `enum class ChangeType` in Layer.h. -/
inductive ChangeType where
  | ADDED
  | MODIFIED
  | REMOVED
  | PERMISSION_CHANGED
deriving DecidableEq

/-- Model of `struct FileChange` in Layer.h: `path`, `type`, and a plain
`std::string new_content_hash` (the field is not optional in the source). -/
structure FileChange where
  path : String
  type : ChangeType
  new_content_hash : String
deriving DecidableEq

/-- Model of `class Layer` in Layer.h: an ordered list of changes and an id. -/
structure Layer where
  changes : List FileChange
  id : String
deriving DecidableEq

/-- Model of one `Plan` object in memory: its `m_id`, its `m_base_plan`
pointer (`none` = `nullptr`, `some i` = address of the base node) and its
`m_layers` stack. -/
structure PlanNode where
  m_id : String
  m_base_plan : Option Nat
  m_layers : List Layer
deriving DecidableEq

/-- The heap: nodes listed in allocation order; the index is the address. -/
abbrev Store := List PlanNode

/-- Model of `std::map<std::string, std::string>` extensionally, as the
lookup function it represents. -/
abbrev StateMap := String → Option String

/-- The empty map (`std::map` default constructor). -/
def emptyMap : StateMap := fun _ => none

/-- Model of `m[k] = v` on `std::map`: insert-or-overwrite. -/
def mapSet (m : StateMap) (k v : String) : StateMap :=
  fun q => if q = k then some v else m q

/-- Model of `m.erase(k)` on `std::map`: remove if present, no-op if absent. -/
def mapErase (m : StateMap) (k : String) : StateMap :=
  fun q => if q = k then none else m q

/-- Model of the guard `if (change.new_content_hash.data())` in
`Plan::getFileSystemState`.  `new_content_hash` is a `std::string`, and
`std::string::data()` never returns a null pointer, so this guard is always
satisfied — there is no representable "absent" identifier in the source. -/
def dataNonNull (_h : String) : Bool := true

/-- Model of the value produced by `*change.new_content_hash.data()`:
dereferencing `data()` reads the string's first character (the NUL terminator
when the string is empty, since `data()[size()] == 0` is guaranteed). -/
def derefDataChar (h : String) : Char := h.data.headD (Char.ofNat 0)

/-- Model of `currentState[change.path] = *change.new_content_hash.data();`:
assigning a `char` to a `std::string` yields the one-character string, so the
value stored in the map is the single first character of the hash — not the
full hash string. -/
def storedString (h : String) : String := String.singleton (derefDataChar h)

/-- One iteration of the inner `switch` in `Plan::getFileSystemState`,
applying a single `FileChange` to the accumulated state. -/
def applyChange (st : StateMap) (c : FileChange) : StateMap :=
  match c.type with
  | ChangeType.ADDED | ChangeType.MODIFIED =>
      if dataNonNull c.new_content_hash then
        mapSet st c.path (storedString c.new_content_hash)
      else
        st
  | ChangeType.REMOVED => mapErase st c.path
  | ChangeType.PERMISSION_CHANGED => st

/-- The inner loop of `Plan::getFileSystemState`: apply every change of one
layer, in order. -/
def applyLayerChanges (st : StateMap) (l : Layer) : StateMap :=
  l.changes.foldl applyChange st

/-- Fuel-indexed recursion of `Plan::getFileSystemState`.  The C++ function
recurses along the base chain; in every store built through the API a node's
base has a strictly smaller address, so the guard `b < i` always holds there
and fuel `i + 1` never runs out.  The `none` branch (dangling address) and the
failed-guard branch are unreachable for API-built stores. -/
def getFSAux (s : Store) : Nat → Nat → StateMap
  | 0, _ => emptyMap
  | fuel + 1, i =>
    match s[i]? with
    | none => emptyMap
    | some node =>
      let baseState :=
        match node.m_base_plan with
        | none => emptyMap
        | some b => if b < i then getFSAux s fuel b else emptyMap
      node.m_layers.foldl applyLayerChanges baseState

/-- Model of `Plan::getFileSystemState` for the node at address `i`. -/
def getFileSystemState (s : Store) (i : Nat) : StateMap :=
  getFSAux s (i + 1) i

/-- Model of `std::make_unique<Plan>(id, base)` / the `Plan` constructor:
allocate a node with the given id and base pointer and an empty layer stack;
returns the new store and the fresh address. -/
def newPlan (s : Store) (pid : String) (base : Option Nat) : Store × Nat :=
  (s ++ [⟨pid, base, []⟩], s.length)

/-- Model of `Plan::applyLayer`: `m_layers.push_back(new_layer)` on the node
at address `i`.  Only that node is modified. -/
def applyLayer (s : Store) (i : Nat) (l : Layer) : Store :=
  match s[i]? with
  | some node => s.set i { node with m_layers := node.m_layers ++ [l] }
  | none => s

/-- Model of `Plan::clone`: allocate a new plan whose base pointer is the
address of the receiver (`shared_from_this`) and whose layer stack is empty. -/
def clone (s : Store) (i : Nat) (new_id : String) : Store × Nat :=
  newPlan s new_id (some i)

/-- Model of `Plan::merge`: if the two base pointers compare equal
(`shared_ptr` identity — equality of addresses, with `none = nullptr`),
allocate a new plan with the shared base and apply planA's layers then
planB's layers to it; otherwise return `nullptr` (`none`). -/
def merge (s : Store) (new_id : String) (a b : Nat) : Option (Store × Nat) :=
  match s[a]?, s[b]? with
  | some na, some nb =>
    if na.m_base_plan = nb.m_base_plan then
      match newPlan s new_id na.m_base_plan with
      | (s1, n) =>
        let s2 := na.m_layers.foldl (fun st l => applyLayer st n l) s1
        let s3 := nb.m_layers.foldl (fun st l => applyLayer st n l) s2
        some (s3, n)
    else
      none
  | _, _ => none

/-- A change record that affects the materialized mapping at path `p`
(`ADDED`/`MODIFIED`/`REMOVED` for that path; `PERMISSION_CHANGED` records
never touch the mapping). -/
def effectiveFor (c : FileChange) (p : String) : Prop :=
  c.path = p ∧ c.type ≠ ChangeType.PERMISSION_CHANGED

instance (c : FileChange) (p : String) : Decidable (effectiveFor c p) :=
  inferInstanceAs (Decidable (c.path = p ∧ c.type ≠ ChangeType.PERMISSION_CHANGED))

/-- A list of change records touches path `p` if some record in it affects
the mapping at `p`. -/
def touchesChanges (cs : List FileChange) (p : String) : Prop :=
  ∃ c ∈ cs, effectiveFor c p

instance (cs : List FileChange) (p : String) : Decidable (touchesChanges cs p) :=
  inferInstanceAs (Decidable (∃ c ∈ cs, effectiveFor c p))

/-- A plan node touches path `p` if some layer of its own stack contains a
record that affects the mapping at `p`. -/
def touchesPlan (node : PlanNode) (p : String) : Prop :=
  ∃ l ∈ node.m_layers, touchesChanges l.changes p

instance (node : PlanNode) (p : String) : Decidable (touchesPlan node p) :=
  inferInstanceAs (Decidable (∃ l ∈ node.m_layers, touchesChanges l.changes p))

/-- Materialization does not depend on the fuel, as long as the fuel exceeds
the address being materialized. -/
theorem getFSAux_fuel (s : Store) :
    ∀ f1 f2 i : Nat, i < f1 → i < f2 → getFSAux s f1 i = getFSAux s f2 i := by
  intro f1
  induction f1 with
  | zero => intro f2 i h1 _; exact absurd h1 (Nat.not_lt_zero i)
  | succ g ih =>
    intro f2 i h1 h2
    cases f2 with
    | zero => exact absurd h2 (Nat.not_lt_zero i)
    | succ g2 =>
      cases hs : s[i]? with
      | none => simp only [getFSAux, hs]
      | some node =>
        cases hb : node.m_base_plan with
        | none => simp only [getFSAux, hs, hb]
        | some b =>
          by_cases hbi : b < i
          · simp only [getFSAux, hs, hb, if_pos hbi, ih g2 b (by omega) (by omega)]
          · simp only [getFSAux, hs, hb, if_neg hbi]

/-- Materialization of the node at address `i` only reads store cells at
addresses `≤ i` (the recursion only ever follows base pointers, which the
guard restricts to strictly smaller addresses). -/
theorem getFSAux_congr (s s' : Store) :
    ∀ f i : Nat, (∀ j, j ≤ i → s[j]? = s'[j]?) → getFSAux s f i = getFSAux s' f i := by
  intro f
  induction f with
  | zero => intro i _; rfl
  | succ g ih =>
    intro i hag
    have hii : s'[i]? = s[i]? := (hag i (Nat.le_refl i)).symm
    cases hs : s[i]? with
    | none => simp only [getFSAux, hs, hii]
    | some node =>
      cases hb : node.m_base_plan with
      | none => simp only [getFSAux, hs, hii, hb]
      | some b =>
        by_cases hbi : b < i
        · simp only [getFSAux, hs, hii, hb, if_pos hbi,
            ih b (fun j hj => hag j (Nat.le_trans hj (Nat.le_of_lt hbi)))]
        · simp only [getFSAux, hs, hii, hb, if_neg hbi]

/-- Two stores agreeing at all addresses up to `i` materialize node `i`
identically. -/
theorem getFileSystemState_congr (s s' : Store) (i : Nat)
    (h : ∀ j, j ≤ i → s[j]? = s'[j]?) :
    getFileSystemState s i = getFileSystemState s' i :=
  getFSAux_congr s s' (i + 1) i h

/-- Unfolding of materialization for a root node (`m_base_plan = nullptr`):
start from the empty map and fold the node's own layers over it. -/
theorem getFileSystemState_root (s : Store) (i : Nat) (node : PlanNode)
    (hs : s[i]? = some node) (hb : node.m_base_plan = none) :
    getFileSystemState s i = node.m_layers.foldl applyLayerChanges emptyMap := by
  unfold getFileSystemState
  simp only [getFSAux, hs, hb]

/-- Unfolding of materialization for a node with a base allocated earlier:
materialize the base, then fold the node's own layers over it. -/
theorem getFileSystemState_child (s : Store) (i bb : Nat) (node : PlanNode)
    (hs : s[i]? = some node) (hb : node.m_base_plan = some bb) (hlt : bb < i) :
    getFileSystemState s i
      = node.m_layers.foldl applyLayerChanges (getFileSystemState s bb) := by
  have h1 : getFileSystemState s i
      = node.m_layers.foldl applyLayerChanges (getFSAux s i bb) := by
    unfold getFileSystemState
    simp only [getFSAux, hs, hb, if_pos hlt]
  rw [h1, getFSAux_fuel s i (bb + 1) bb hlt (Nat.lt_succ_self bb)]
  rfl

/-- `applyLayer` leaves every store cell other than the receiver unchanged. -/
theorem applyLayer_getElem_ne (s : Store) (i : Nat) (l : Layer) (j : Nat)
    (hj : i ≠ j) : (applyLayer s i l)[j]? = s[j]? := by
  unfold applyLayer
  cases hs : s[i]? with
  | none => rfl
  | some node => exact List.getElem?_set_ne hj

/-- `applyLayer` replaces the receiving cell by the same node with the new
layer appended to `m_layers`. -/
theorem applyLayer_getElem_self (s : Store) (i : Nat) (l : Layer) (node : PlanNode)
    (hs : s[i]? = some node) :
    (applyLayer s i l)[i]? = some { node with m_layers := node.m_layers ++ [l] } := by
  unfold applyLayer
  rw [hs]
  exact List.getElem?_set_eq_of_lt _ (List.getElem?_eq_some.mp hs).1

/-- Folding a sequence of `applyLayer` calls on one address leaves all other
addresses unchanged. -/
theorem foldl_applyLayer_getElem_ne (ls : List Layer) (s : Store) (n j : Nat)
    (hj : n ≠ j) : (ls.foldl (fun st l => applyLayer st n l) s)[j]? = s[j]? := by
  induction ls generalizing s with
  | nil => rfl
  | cons l ls ih =>
    rw [List.foldl_cons, ih (applyLayer s n l), applyLayer_getElem_ne s n l j hj]

/-- Folding a sequence of `applyLayer` calls on one address appends exactly
those layers, in order, to the receiving node. -/
theorem foldl_applyLayer_getElem_self (ls : List Layer) (s : Store) (n : Nat)
    (node : PlanNode) (hs : s[n]? = some node) :
    (ls.foldl (fun st l => applyLayer st n l) s)[n]?
      = some { node with m_layers := node.m_layers ++ ls } := by
  induction ls generalizing s node with
  | nil => simpa using hs
  | cons l ls ih =>
    rw [List.foldl_cons, ih (applyLayer s n l) _ (applyLayer_getElem_self s n l node hs)]
    simp

/-- Successful-path specification of `merge`: when both operands exist and
their base pointers compare equal, `merge` allocates exactly one node, at
address `s.length`, holding the shared base and the concatenated layers, and
leaves every pre-existing cell unchanged. -/
theorem merge_spec (s : Store) (new_id : String) (a b : Nat) (na nb : PlanNode)
    (ha : s[a]? = some na) (hb : s[b]? = some nb)
    (hbase : na.m_base_plan = nb.m_base_plan) :
    ∃ s', merge s new_id a b = some (s', s.length)
      ∧ s'[s.length]? = some ⟨new_id, na.m_base_plan, na.m_layers ++ nb.m_layers⟩
      ∧ ∀ j, j < s.length → s'[j]? = s[j]? := by
  refine ⟨nb.m_layers.foldl (fun st l => applyLayer st s.length l)
            (na.m_layers.foldl (fun st l => applyLayer st s.length l)
              (s ++ [⟨new_id, na.m_base_plan, []⟩])), ?_, ?_, ?_⟩
  · simp only [merge, ha, hb, if_pos hbase, newPlan]
  · have h1 : (s ++ [(⟨new_id, na.m_base_plan, []⟩ : PlanNode)])[s.length]?
        = some ⟨new_id, na.m_base_plan, []⟩ := List.getElem?_concat_length _ _
    have h2 := foldl_applyLayer_getElem_self na.m_layers _ s.length _ h1
    have h3 := foldl_applyLayer_getElem_self nb.m_layers _ s.length _ h2
    simpa using h3
  · intro j hj
    rw [foldl_applyLayer_getElem_ne _ _ _ _ (by omega),
        foldl_applyLayer_getElem_ne _ _ _ _ (by omega),
        List.getElem?_append_left hj]

/-- A change record that does not affect path `p` leaves the state at `p`
unchanged. -/
theorem applyChange_not_effective (st : StateMap) (c : FileChange) (p : String)
    (h : ¬ effectiveFor c p) : applyChange st c p = st p := by
  unfold applyChange
  cases hc : c.type with
  | ADDED =>
    have hp : ¬(p = c.path) := fun he => h ⟨he.symm, by simp [hc]⟩
    simp [dataNonNull, mapSet, hp]
  | MODIFIED =>
    have hp : ¬(p = c.path) := fun he => h ⟨he.symm, by simp [hc]⟩
    simp [dataNonNull, mapSet, hp]
  | REMOVED =>
    have hp : ¬(p = c.path) := fun he => h ⟨he.symm, by simp [hc]⟩
    simp [mapErase, hp]
  | PERMISSION_CHANGED => rfl

/-- A change record that does affect path `p` determines the state at `p`
regardless of the incoming state. -/
theorem applyChange_effective_indep (st1 st2 : StateMap) (c : FileChange) (p : String)
    (h : effectiveFor c p) : applyChange st1 c p = applyChange st2 c p := by
  obtain ⟨hpath, htype⟩ := h
  unfold applyChange
  cases hc : c.type with
  | ADDED => simp [dataNonNull, mapSet, hpath]
  | MODIFIED => simp [dataNonNull, mapSet, hpath]
  | REMOVED => simp [mapErase, hpath]
  | PERMISSION_CHANGED => exact absurd hc htype

/-- A record list with no record affecting `p` leaves the state at `p`
unchanged. -/
theorem foldl_applyChange_frame (cs : List FileChange) (p : String)
    (h : ¬ touchesChanges cs p) :
    ∀ st : StateMap, (cs.foldl applyChange st) p = st p := by
  induction cs with
  | nil => intro st; rfl
  | cons c cs ih =>
    intro st
    have hc : ¬ effectiveFor c p := fun he => h ⟨c, List.mem_cons_self c cs, he⟩
    have hcs : ¬ touchesChanges cs p :=
      fun he => h (by obtain ⟨c', hc', he'⟩ := he; exact ⟨c', List.mem_cons_of_mem c hc', he'⟩)
    rw [List.foldl_cons, ih hcs, applyChange_not_effective st c p hc]

/-- Last-writer determinism: if some record of the list affects `p`, the final
state at `p` does not depend on the incoming state. -/
theorem foldl_applyChange_lastWrite (cs : List FileChange) (p : String)
    (h : touchesChanges cs p) (st1 st2 : StateMap) :
    (cs.foldl applyChange st1) p = (cs.foldl applyChange st2) p := by
  induction cs generalizing st1 st2 with
  | nil => exact absurd h (by simp [touchesChanges])
  | cons c cs ih =>
    rw [List.foldl_cons, List.foldl_cons]
    by_cases hcs : touchesChanges cs p
    · exact ih hcs _ _
    · have hc : effectiveFor c p := by
        obtain ⟨c', hm, he⟩ := h
        rcases List.mem_cons.mp hm with rfl | hm'
        · exact he
        · exact absurd ⟨c', hm', he⟩ hcs
      rw [foldl_applyChange_frame cs p hcs, foldl_applyChange_frame cs p hcs,
          applyChange_effective_indep st1 st2 c p hc]

/-- A layer list with no record affecting `p` leaves the state at `p`
unchanged. -/
theorem foldl_layers_frame (ls : List Layer) (p : String)
    (h : ∀ l ∈ ls, ¬ touchesChanges l.changes p) :
    ∀ st : StateMap, (ls.foldl applyLayerChanges st) p = st p := by
  induction ls with
  | nil => intro st; rfl
  | cons l ls ih =>
    intro st
    rw [List.foldl_cons, ih (fun l' hl' => h l' (List.mem_cons_of_mem l hl'))]
    exact foldl_applyChange_frame l.changes p (h l (List.mem_cons_self l ls)) st

/-- Last-writer determinism at the layer level: if some layer of the list
affects `p`, the final state at `p` does not depend on the incoming state. -/
theorem foldl_layers_lastWrite (ls : List Layer) (p : String)
    (h : ∃ l ∈ ls, touchesChanges l.changes p) (st1 st2 : StateMap) :
    (ls.foldl applyLayerChanges st1) p = (ls.foldl applyLayerChanges st2) p := by
  induction ls generalizing st1 st2 with
  | nil => exact absurd h (by simp)
  | cons l ls ih =>
    rw [List.foldl_cons, List.foldl_cons]
    by_cases hls : ∃ l' ∈ ls, touchesChanges l'.changes p
    · exact ih hls _ _
    · have hl : touchesChanges l.changes p := by
        obtain ⟨l', hm, ht⟩ := h
        rcases List.mem_cons.mp hm with rfl | hm'
        · exact ht
        · exact absurd ⟨l', hm', ht⟩ hls
      have hframe : ∀ l' ∈ ls, ¬ touchesChanges l'.changes p :=
        fun l' hl' ht' => hls ⟨l', hl', ht'⟩
      rw [foldl_layers_frame ls p hframe, foldl_layers_frame ls p hframe]
      exact foldl_applyChange_lastWrite l.changes p hl st1 st2

/-- Claim C9: for every root Plan (`m_base_plan = nullptr`) with no layers,
`getFileSystemState` returns the empty mapping, regardless of the plan's
identifier (the node's `m_id` is arbitrary here). -/
theorem C9_root_plan_empty_mapping (s : Store) (i : Nat) (node : PlanNode)
    (hs : s[i]? = some node) (hbase : node.m_base_plan = none)
    (hlayers : node.m_layers = []) :
    getFileSystemState s i = emptyMap := by
  rw [getFileSystemState_root s i node hs hbase, hlayers]
  rfl

/-- Witness for C9 at a concrete one-node store. -/
theorem C9_witness : getFileSystemState [⟨"root", none, []⟩] 0 = emptyMap :=
  C9_root_plan_empty_mapping [⟨"root", none, []⟩] 0 ⟨"root", none, []⟩ rfl rfl rfl

/-- Store exercising claim C1: a single root plan whose one layer first adds
`"/a"` with identifier `"h1"` and then modifies it to `"k2"`. -/
def c1Store : Store :=
  [⟨"R", none,
    [⟨[⟨"/a", ChangeType.ADDED, "h1"⟩, ⟨"/a", ChangeType.MODIFIED, "k2"⟩], "L0"⟩]⟩]

/-- Claim C1 (code bug): the claim says materialization stores the record's
full `new_content_id`, but the source line
`currentState[change.path] = *change.new_content_hash.data();` dereferences
`data()` and so assigns a single `char` to the mapped `std::string`: only the
first character of the identifier is stored.  Later records for the same path
do override earlier ones, but with the truncated value: here the final value
at `"/a"` is `"k"`, not the claimed `"k2"`.  This contradicts the repository's
own README, which documents `state["/README.md"] == "hash_readme_v2"`. -/
theorem C1_stores_first_char_only :
    getFileSystemState c1Store 0 "/a" = some "k"
      ∧ (some "k" : Option String) ≠ some "k2" := by
  constructor
  · decide
  · decide

/-- Layers for claim C3's two application orders. -/
def c3LayerA : Layer := ⟨[⟨"/p", ChangeType.ADDED, "a1"⟩], "LA"⟩

/-- Second layer for claim C3. -/
def c3LayerM : Layer := ⟨[⟨"/p", ChangeType.MODIFIED, "b2"⟩], "LM"⟩

/-- Root plan with `c3LayerA` then `c3LayerM` applied. -/
def c3Forward : Store := applyLayer (applyLayer [⟨"P", none, []⟩] 0 c3LayerA) 0 c3LayerM

/-- Root plan with `c3LayerM` then `c3LayerA` applied. -/
def c3Reverse : Store := applyLayer (applyLayer [⟨"P", none, []⟩] 0 c3LayerM) 0 c3LayerA

/-- Claim C3 (code bug): the layer applied last does determine the winner,
but the value materialized is the truncated first character of the winning
record's identifier, not the full identifier the claim states: the forward
order yields `"b"` (not `"b2"`) and the reverse order yields `"a"` (not
`"a1"`). -/
theorem C3_order_sensitivity_truncated :
    getFileSystemState c3Forward 0 "/p" = some "b"
      ∧ getFileSystemState c3Reverse 0 "/p" = some "a"
      ∧ (some "b" : Option String) ≠ some "b2"
      ∧ (some "a" : Option String) ≠ some "a1" := by
  refine ⟨by decide, by decide, by decide, by decide⟩

/-- Store exercising claim C2: a root plan with one `ADDED` record whose
identifier is the empty string — the closest representable form of an
"absent" `new_content_hash`, since the field is a plain `std::string`. -/
def c2Store : Store := [⟨"R", none, [⟨[⟨"/a", ChangeType.ADDED, ""⟩], "L"⟩]⟩]

/-- Counterexample to claim C2: an `ADDED` record with an empty (absent-like)
identifier is NOT a no-op.  `std::string::data()` never returns null, so the
defensive guard always passes, and `*data()` on an empty string reads the NUL
terminator: the mapping gains the entry `"/a" ↦ "\x00"` instead of staying
empty. -/
theorem C2_counterexample_empty_id_not_noop :
    getFileSystemState c2Store 0 "/a" = some (String.singleton (Char.ofNat 0))
      ∧ getFileSystemState c2Store 0 "/a" ≠ none := by
  refine ⟨by decide, by decide⟩

/-- Claim C2 as amended: `new_content_hash` is a plain string and is never
absent; the guard `if (new_content_hash.data())` always holds, so every
`ADDED`/`MODIFIED` record updates the mapping at its path (to the
one-character string `storedString`), and a record with an empty identifier
stores the NUL-character string rather than being a no-op.  The materializer
is a total function, so the core indeed never throws or aborts for this
data-shape issue. -/
theorem C2_amended_guard_always_fires (st : StateMap) (p h : String) :
    applyChange st ⟨p, ChangeType.ADDED, h⟩ p = some (storedString h)
      ∧ applyChange st ⟨p, ChangeType.MODIFIED, h⟩ p = some (storedString h)
      ∧ storedString "" = String.singleton (Char.ofNat 0) := by
  refine ⟨?_, ?_, rfl⟩ <;> simp [applyChange, dataNonNull, mapSet]

/-- Claim C10: a `REMOVED` record for a path not present in the current
mapping leaves the mapping unchanged, and applying the same `REMOVED` record
twice yields the same mapping as applying it once. -/
theorem C10_removed_idempotent (st : StateMap) (p h : String) :
    (st p = none → applyChange st ⟨p, ChangeType.REMOVED, h⟩ = st)
      ∧ applyChange (applyChange st ⟨p, ChangeType.REMOVED, h⟩)
            ⟨p, ChangeType.REMOVED, h⟩
          = applyChange st ⟨p, ChangeType.REMOVED, h⟩ := by
  constructor
  · intro habs
    funext q
    by_cases hq : q = p
    · subst hq; simp [applyChange, mapErase, habs]
    · simp [applyChange, mapErase, hq]
  · funext q
    by_cases hq : q = p
    · subst hq; simp [applyChange, mapErase]
    · simp [applyChange, mapErase, hq]

/-- Witness for C10: removal of an absent path from the empty map is the
identity, and double removal equals single removal on a one-entry map. -/
theorem C10_witness :
    applyChange emptyMap ⟨"/x", ChangeType.REMOVED, ""⟩ = emptyMap
      ∧ applyChange (applyChange (mapSet emptyMap "/x" "v")
            ⟨"/x", ChangeType.REMOVED, ""⟩) ⟨"/x", ChangeType.REMOVED, ""⟩
          = applyChange (mapSet emptyMap "/x" "v") ⟨"/x", ChangeType.REMOVED, ""⟩ :=
  ⟨(C10_removed_idempotent emptyMap "/x" "").1 rfl,
   (C10_removed_idempotent (mapSet emptyMap "/x" "v") "/x" "").2⟩

/-- Claim C7: `clone` returns a plan whose base pointer is the cloned plan
and whose layer stack is empty, and materializing the clone immediately after
cloning gives exactly the materialization of the source at clone time. -/
theorem C7_clone_spec (s : Store) (i : Nat) (node : PlanNode) (new_id : String)
    (hs : s[i]? = some node) :
    ((clone s i new_id).1)[(clone s i new_id).2]? = some ⟨new_id, some i, []⟩
      ∧ getFileSystemState (clone s i new_id).1 (clone s i new_id).2
          = getFileSystemState s i := by
  have hlen : i < s.length := (List.getElem?_eq_some.mp hs).1
  constructor
  · exact List.getElem?_concat_length _ _
  · have hc : ((clone s i new_id).1)[s.length]? = some ⟨new_id, some i, []⟩ :=
      List.getElem?_concat_length _ _
    have h1 := getFileSystemState_child (clone s i new_id).1 s.length i
      ⟨new_id, some i, []⟩ hc rfl hlen
    have h2 : getFileSystemState (clone s i new_id).1 i = getFileSystemState s i :=
      getFileSystemState_congr _ s i
        (fun j hj => List.getElem?_append_left (by omega))
    calc getFileSystemState (clone s i new_id).1 (clone s i new_id).2
        = getFileSystemState (clone s i new_id).1 i := h1
      _ = getFileSystemState s i := h2

/-- Store exercising claim C7's witness: a root holding one layer. -/
def c7Store : Store := [⟨"R", none, [⟨[⟨"/a", ChangeType.ADDED, "x"⟩], "L"⟩]⟩]

/-- Witness for C7 on a concrete plan with content. -/
theorem C7_witness :
    ((clone c7Store 0 "C").1)[(clone c7Store 0 "C").2]? = some ⟨"C", some 0, []⟩
      ∧ getFileSystemState (clone c7Store 0 "C").1 (clone c7Store 0 "C").2
          = getFileSystemState c7Store 0 :=
  C7_clone_spec c7Store 0 ⟨"R", none, [⟨[⟨"/a", ChangeType.ADDED, "x"⟩], "L"⟩]⟩ "C" rfl

/-- Layer used by claim C8's stores. -/
def c8Layer : Layer := ⟨[⟨"/a", ChangeType.ADDED, "h"⟩], "L"⟩

/-- A lone root plan `P`. -/
def c8Base : Store := [⟨"P", none, []⟩]

/-- The store after cloning `P` into `C` (address 1, base pointer to 0). -/
def c8Cloned : Store := (clone c8Base 0 "C").1

/-- The store after subsequently applying a layer to the source `P`. -/
def c8Mutated : Store := applyLayer c8Cloned 0 c8Layer

/-- Counterexample to claim C8: applying a layer to the source after cloning
DOES change the clone's materialization.  The clone's base is a live pointer
to the source object, and `getFileSystemState` re-reads the base's current
layer stack, so the source's new layer becomes visible through the clone:
before the mutation the clone materializes `"/a" ↦ none`, afterwards
`"/a" ↦ some "h"`. -/
theorem C8_counterexample_source_mutation_visible :
    getFileSystemState c8Cloned 1 "/a" = none
      ∧ getFileSystemState c8Mutated 1 "/a" = some "h"
      ∧ getFileSystemState c8Mutated 1 "/a" ≠ getFileSystemState c8Cloned 1 "/a" := by
  refine ⟨by decide, by decide, by decide⟩

/-- Claim C8 as amended: `applyLayer` mutates only the receiving plan's own
node — every other address is untouched and the receiver merely has the new
layer appended — and applying a layer to a fresh clone never changes the
source's materialization.  The original claim's converse direction (mutating
the source never changes the clone) is refuted by the counterexample. -/
theorem C8_applyLayer_frame (s : Store) (i j : Nat) (node : PlanNode)
    (new_id : String) (l : Layer) (hs : s[i]? = some node) (hj : i ≠ j) :
    (applyLayer s i l)[j]? = s[j]?
      ∧ (applyLayer s i l)[i]? = some { node with m_layers := node.m_layers ++ [l] }
      ∧ getFileSystemState (applyLayer (clone s i new_id).1 (clone s i new_id).2 l) i
          = getFileSystemState s i := by
  have hlen : i < s.length := (List.getElem?_eq_some.mp hs).1
  refine ⟨applyLayer_getElem_ne s i l j hj, applyLayer_getElem_self s i l node hs, ?_⟩
  have h2len : (clone s i new_id).2 = s.length := rfl
  have hagree : ∀ k, k ≤ i →
      (applyLayer (clone s i new_id).1 (clone s i new_id).2 l)[k]? = s[k]? := by
    intro k hk
    rw [applyLayer_getElem_ne _ _ _ k (by rw [h2len]; omega)]
    exact List.getElem?_append_left (by omega)
  exact getFileSystemState_congr _ s i hagree

/-- Witness for C8's amended theorem on the concrete one-plan store. -/
theorem C8_witness :
    (applyLayer c8Base 0 c8Layer)[1]? = c8Base[1]?
      ∧ (applyLayer c8Base 0 c8Layer)[0]? = some ⟨"P", none, [c8Layer]⟩
      ∧ getFileSystemState (applyLayer (clone c8Base 0 "C").1 (clone c8Base 0 "C").2 c8Layer) 0
          = getFileSystemState c8Base 0 :=
  C8_applyLayer_frame c8Base 0 1 ⟨"P", none, []⟩ "C" c8Layer rfl (by decide)

/-- Two root plans created independently, one after the other: structurally
they may be identical (the ids are arbitrary, even equal), but they live at
the distinct addresses 0 and 1. -/
def twoRoots (id1 id2 : String) : Store := (newPlan (newPlan [] id1 none).1 id2 none).1

/-- The two independent roots, each cloned once: the clones live at addresses
2 and 3 and their base pointers are `some 0` resp. `some 1`. -/
def twoRootsClones (id1 id2 idA idB : String) : Store :=
  (clone (clone (twoRoots id1 id2) 0 idA).1 1 idB).1

/-- Claim C5: `merge` compares the two base pointers by `shared_ptr` identity
(address equality), and when they differ it returns `nullptr` — no plan, not
even a partial one, is produced.  In particular merging the clones of two
independently created root plans fails, even when the two roots are
structurally identical (arbitrary, possibly equal ids; both with empty layer
stacks): only their addresses differ. -/
theorem C5_merge_rejects_different_bases (s : Store) (a b : Nat) (na nb : PlanNode)
    (mid : String) (ha : s[a]? = some na) (hb : s[b]? = some nb)
    (hne : na.m_base_plan ≠ nb.m_base_plan) :
    merge s mid a b = none
      ∧ ∀ id1 id2 idA idB mid2 : String,
          merge (twoRootsClones id1 id2 idA idB) mid2 2 3 = none := by
  constructor
  · simp only [merge, ha, hb, if_neg hne]
  · intro id1 id2 idA idB mid2
    rfl

/-- Witness for C5: merging clones of two structurally identical roots (both
named `"R"`) fails. -/
theorem C5_witness : merge (twoRootsClones "R" "R" "A" "B") "M" 2 3 = none :=
  (C5_merge_rejects_different_bases (twoRootsClones "R" "R" "A" "B") 2 3
    ⟨"A", some 0, []⟩ ⟨"B", some 1, []⟩ "M" rfl rfl (by decide)).1

/-- Claim C6: merging two root plans succeeds.  Both base pointers are
`nullptr`, which compare equal under the identity check, so `merge` returns a
plan whose base is `nullptr` and whose layers are planA's followed by
planB's, even though the two roots are entirely unrelated. -/
theorem C6_merge_two_roots (s : Store) (a b : Nat) (na nb : PlanNode) (mid : String)
    (ha : s[a]? = some na) (hb : s[b]? = some nb)
    (hA : na.m_base_plan = none) (hB : nb.m_base_plan = none) :
    ∃ s', merge s mid a b = some (s', s.length)
      ∧ s'[s.length]? = some ⟨mid, none, na.m_layers ++ nb.m_layers⟩ := by
  obtain ⟨s', hm, hn, _⟩ := merge_spec s mid a b na nb ha hb (by rw [hA, hB])
  exact ⟨s', hm, by rwa [hA] at hn⟩

/-- First root's layer for C6's witness. -/
def c6L1 : Layer := ⟨[⟨"/a", ChangeType.ADDED, "x"⟩], "L1"⟩

/-- Second root's layer for C6's witness. -/
def c6L2 : Layer := ⟨[⟨"/b", ChangeType.ADDED, "y"⟩], "L2"⟩

/-- Two unrelated root plans, each carrying one layer. -/
def c6Store : Store := [⟨"R1", none, [c6L1]⟩, ⟨"R2", none, [c6L2]⟩]

/-- Witness for C6: the two unrelated roots merge successfully. -/
theorem C6_witness :
    ∃ s', merge c6Store "M" 0 1 = some (s', 2)
      ∧ s'[2]? = some ⟨"M", none, [c6L1] ++ [c6L2]⟩ :=
  C6_merge_two_roots c6Store 0 1 ⟨"R1", none, [c6L1]⟩ ⟨"R2", none, [c6L2]⟩ "M"
    rfl rfl rfl rfl

/-- Claim C4: when the two plans' base pointers are identical, `merge`
returns a plan whose base is that shared base and whose layer sequence is
planA's layers followed by planB's; consequently, for any path touched by
both plans, the merged plan materializes at that path to exactly planB's
materialized value (last-write-wins by layer-application order).  The
hypothesis `hwf` records the allocation-order invariant of every API-built
store: a base pointer refers to a node allocated before its referrers. -/
theorem C4_merge_shared_base (s : Store) (a b : Nat) (na nb : PlanNode)
    (mid p : String) (ha : s[a]? = some na) (hb : s[b]? = some nb)
    (hbase : na.m_base_plan = nb.m_base_plan)
    (hwf : ∀ bb, na.m_base_plan = some bb → bb < a ∧ bb < b)
    (htA : touchesPlan na p) (htB : touchesPlan nb p) :
    ∃ s', merge s mid a b = some (s', s.length)
      ∧ s'[s.length]? = some ⟨mid, na.m_base_plan, na.m_layers ++ nb.m_layers⟩
      ∧ getFileSystemState s' s.length p = getFileSystemState s b p := by
  obtain ⟨s', hm, hn, hframe⟩ := merge_spec s mid a b na nb ha hb hbase
  refine ⟨s', hm, hn, ?_⟩
  have ha_lt : a < s.length := (List.getElem?_eq_some.mp ha).1
  have hb_lt : b < s.length := (List.getElem?_eq_some.mp hb).1
  cases hbp : na.m_base_plan with
  | none =>
    have hmerged := getFileSystemState_root s' s.length
      ⟨mid, na.m_base_plan, na.m_layers ++ nb.m_layers⟩ hn hbp
    have hBmat := getFileSystemState_root s b nb hb (by rw [← hbase, hbp])
    rw [hmerged, hBmat, List.foldl_append]
    exact foldl_layers_lastWrite nb.m_layers p htB _ _
  | some bb =>
    obtain ⟨hba, hbb⟩ := hwf bb hbp
    have hmerged := getFileSystemState_child s' s.length bb
      ⟨mid, na.m_base_plan, na.m_layers ++ nb.m_layers⟩ hn hbp (by omega)
    have hbaseeq : getFileSystemState s' bb = getFileSystemState s bb :=
      getFileSystemState_congr s' s bb (fun j hj => hframe j (by omega))
    have hBmat := getFileSystemState_child s b bb nb hb (by rw [← hbase, hbp]) hbb
    rw [hmerged, hbaseeq, hBmat, List.foldl_append]
    exact foldl_layers_lastWrite nb.m_layers p htB _ _

/-- Layer applied to clone `A` in C4's witness scenario. -/
def c4LA : Layer := ⟨[⟨"/p", ChangeType.ADDED, "x"⟩], "LA"⟩

/-- Layer applied to clone `B` in C4's witness scenario. -/
def c4LB : Layer := ⟨[⟨"/p", ChangeType.ADDED, "y"⟩], "LB"⟩

/-- The spec's merge scenario: root `R`, clones `A` and `B` of `R`, layer
`[Added("/p","x")]` on `A` and `[Added("/p","y")]` on `B`. -/
def c4Store : Store :=
  applyLayer (applyLayer (clone (clone [⟨"R", none, []⟩] 0 "A").1 0 "B").1 1 c4LA) 2 c4LB

/-- Witness for C4: merging `A` and `B` yields a plan that materializes
`"/p"` to `B`'s value. -/
theorem C4_witness :
    ∃ s', merge c4Store "AB" 1 2 = some (s', 3)
      ∧ s'[3]? = some ⟨"AB", some 0, [c4LA] ++ [c4LB]⟩
      ∧ getFileSystemState s' 3 "/p" = getFileSystemState c4Store 2 "/p" :=
  C4_merge_shared_base c4Store 1 2 ⟨"A", some 0, [c4LA]⟩ ⟨"B", some 0, [c4LB]⟩
    "AB" "/p" rfl rfl rfl
    (by intro bb hbb; injection hbb with h; subst h; exact ⟨by omega, by omega⟩)
    (by decide) (by decide)

end Dualys
